import Mathlib

/-!
# Verification of the redirect-status middleware

A shallow embedding of `redirectstatus.go` from
`turingvideo/traefik-plugin-redirect-status`.

The Go program wraps a real `http.ResponseWriter` (the real sink) in a
`codeCatcher` interceptor.  The interceptor records the status code of the
first commit, tests it against the configured code ranges, and either
passes the response through or suppresses it so that the middleware can
substitute a redirect response.

Modelling conventions:
* `http.Header` (a Go `map[string][]string`) is a total function
  `String → List String`, empty keys mapping to `[]`.  Go canonicalises
  header keys; the model uses keys verbatim, which is faithful for the
  literal keys the program uses.
* Response bodies and write buffers (`[]byte`) are `String`s; `len(buf)`
  is `buf.length`.
* Go `int` status codes are `Int`.
* The real sink is a recorder: `statusLog` collects the `WriteHeader`
  invocations it receives, `body` the bytes, `flushLog` counts `Flush`
  invocations; `supportsFlush` models the `http.Flusher` type assertion
  and `writeRes` models the count/error pair the real `Write` reports.
* The upstream handler is a list of `Event`s replayed against the
  interceptor; `nil` errors are `Option.none`.
-/

namespace RedirectStatus

/-- Go `http.Header`: a finite map from key to list of values, modelled as a
total function defaulting to `[]`. -/
def Header : Type := String → List String

/-- `h.Set(k, v)`: replaces all values of key `k` by the single value `v`. -/
def headerSet (h : Header) (k v : String) : Header :=
  fun q => if q = k then [v] else h q

/-- `h.Add(k, v)`: appends `v` to the values of key `k`. -/
def headerAdd (h : Header) (k v : String) : Header :=
  fun q => if q = k then h k ++ [v] else h q

/-- `h.Del(k)`: removes key `k`. -/
def headerDel (h : Header) (k : String) : Header :=
  fun q => if q = k then [] else h q

/-- The empty header map (`make(http.Header)`). -/
def emptyHeader : Header := fun _ => []

/-- `copyHeaders(dst, src)` from the source: for every key of `src` it
appends the values of `src` to those already in `dst` (`dst[k] =
append(dst[k], vv...)`); keys absent from `src` keep their `dst` values.
In the function model this is pointwise list append. -/
def copyHeaders (dst src : Header) : Header :=
  fun k => dst k ++ src k

/-- The real sink (`http.ResponseWriter` handed to `ServeHTTP`), as a
recorder of everything the program does to it. -/
structure RealSink where
  header : Header
  statusLog : List Int
  body : String
  flushLog : Nat
  supportsFlush : Bool
  writeRes : String → Nat × Option String

/-- The real sink receives `Write(buf)`: bytes are appended to its body and
it reports a byte count and error of its own (`writeRes`). -/
def sinkWrite (s : RealSink) (buf : String) : RealSink × (Nat × Option String) :=
  ({ s with body := s.body ++ buf }, s.writeRes buf)

/-- The mutable fields of the Go `codeCatcher` struct, together with the
real sink it wraps (`responseWriter`). -/
structure CCState where
  headerMap : Header
  code : Int
  httpCodeRanges : List (Int × Int)
  caughtFilteredCode : Bool
  headersSent : Bool
  sink : RealSink

/-- The loop in `codeCatcher.WriteHeader` over `cc.httpCodeRanges`:
true iff some block satisfies `block[0] <= code && code <= block[1]`. -/
def containsCode (ranges : List (Int × Int)) (code : Int) : Bool :=
  ranges.any fun block => decide (block.1 ≤ code) && decide (code ≤ block.2)

/-- `newCodeCatcher(rw, httpCodeRanges)`: fresh header map, code 200,
both flags unset. -/
def newCodeCatcher (rw : RealSink) (ranges : List (Int × Int)) : CCState :=
  { headerMap := emptyHeader
    code := 200
    httpCodeRanges := ranges
    caughtFilteredCode := false
    headersSent := false
    sink := rw }

/-- `codeCatcher.Header()`: always returns the private captured map
(`cc.headerMap`); the nil check in the source never fires because the
constructor allocates the map. -/
def ccHeader (cc : CCState) : Header := cc.headerMap

/-- `codeCatcher.getCode()`. -/
def getCode (cc : CCState) : Int := cc.code

/-- `codeCatcher.isFilteredCode()`. -/
def isFilteredCode (cc : CCState) : Bool := cc.caughtFilteredCode

/-- `codeCatcher.WriteHeader(code)`: no-op once `headersSent` or
`caughtFilteredCode` is set; otherwise records the code, and either marks
the code as caught (when some range contains it) or copies the captured
headers additively into the real sink, commits the code there and sets
`headersSent`. -/
def ccWriteHeader (cc : CCState) (code : Int) : CCState :=
  if cc.headersSent || cc.caughtFilteredCode then cc
  else if containsCode cc.httpCodeRanges code then
    { cc with code := code, caughtFilteredCode := true }
  else
    { cc with
      code := code
      headersSent := true
      sink := { cc.sink with
        header := copyHeaders cc.sink.header cc.headerMap
        statusLog := cc.sink.statusLog ++ [code] } }

/-- `codeCatcher.Write(buf)`: first the implicit `WriteHeader(cc.code)`,
then either drop the bytes reporting `(len(buf), nil)`, or forward them to
the real sink returning its result. -/
def ccWrite (cc : CCState) (buf : String) : CCState × (Nat × Option String) :=
  let cc := ccWriteHeader cc cc.code
  if cc.caughtFilteredCode then (cc, (buf.length, none))
  else
    let r := sinkWrite cc.sink buf
    ({ cc with sink := r.1 }, r.2)

/-- `codeCatcher.Flush()`: the implicit `WriteHeader(cc.code)`, then a
forwarded flush whenever the real sink supports flushing (the source has
no suppression check here). -/
def ccFlush (cc : CCState) : CCState :=
  let cc := ccWriteHeader cc cc.code
  if cc.sink.supportsFlush then
    { cc with sink := { cc.sink with flushLog := cc.sink.flushLog + 1 } }
  else cc

/-- One call the upstream handler can make on the interceptor. -/
inductive Event where
  | setHeader (k v : String)
  | addHeader (k v : String)
  | writeHeader (code : Int)
  | write (buf : String)
  | flush

/-- Replay one handler call against the interceptor.  Header mutation goes
through `ccHeader`, i.e. to whatever map `codeCatcher.Header()` returns. -/
def step (cc : CCState) : Event → CCState
  | .setHeader k v => { cc with headerMap := headerSet (ccHeader cc) k v }
  | .addHeader k v => { cc with headerMap := headerAdd (ccHeader cc) k v }
  | .writeHeader c => ccWriteHeader cc c
  | .write buf => (ccWrite cc buf).1
  | .flush => ccFlush cc

/-- `r.next.ServeHTTP(catcher, req)`: replay the handler trace. -/
def runHandler (cc : CCState) (es : List Event) : CCState :=
  es.foldl step cc

/-- Events that only mutate headers (no commit). -/
def isHeaderEvent : Event → Bool
  | .setHeader _ _ => true
  | .addHeader _ _ => true
  | _ => false

/-- The code carried by the first status commit of a trace, if any:
an explicit `WriteHeader c` carries `c`; a first body write or flush
commits implicitly with the currently captured code `dflt` (which is the
constructor default 200, since nothing before a commit changes it). -/
def firstCommitCode (dflt : Int) : List Event → Option Int
  | [] => none
  | .setHeader _ _ :: rest => firstCommitCode dflt rest
  | .addHeader _ _ :: rest => firstCommitCode dflt rest
  | .writeHeader c :: _ => some c
  | .write _ :: _ => some dflt
  | .flush :: _ => some dflt

/-- The incoming request: its method and the string form of its URL
(`req.Method`, `req.URL.String()`). -/
structure Request where
  method : String
  url : String

/-- Helper: concatenated map over a list. -/
def concatMap {α β : Type} (f : α → List β) : List α → List β
  | [] => []
  | a :: l => f a ++ concatMap f l

/-- UTF-8 encoding of a character, as byte values. -/
def utf8Bytes (c : Char) : List Nat :=
  let n := c.toNat
  if n < 128 then [n]
  else if n < 2048 then [192 + n / 64, 128 + n % 64]
  else if n < 65536 then [224 + n / 4096, 128 + n / 64 % 64, 128 + n % 64]
  else [240 + n / 262144, 128 + n / 4096 % 64, 128 + n / 64 % 64, 128 + n % 64]

/-- Upper-case hexadecimal digit, as Go `"0123456789ABCDEF"[n]`. -/
def hexUpper (n : Nat) : Char :=
  if n < 10 then Char.ofNat (48 + n) else Char.ofNat (55 + n)

/-- The bytes Go `url.QueryEscape` leaves unescaped: ASCII alphanumerics
and `-`, `.`, `_`, `~`. -/
def isUnreservedByte (b : Nat) : Bool :=
  (48 ≤ b && b ≤ 57) || (65 ≤ b && b ≤ 90) || (97 ≤ b && b ≤ 122) ||
    b == 45 || b == 46 || b == 95 || b == 126

/-- Percent-escaping of one byte under Go `url.QueryEscape`: unreserved
bytes stand for themselves, a space becomes `+`, anything else `%XX`. -/
def escapeByte (b : Nat) : List Char :=
  if isUnreservedByte b then [Char.ofNat b]
  else if b == 32 then ['+']
  else ['%', hexUpper (b / 16), hexUpper (b % 16)]

/-- Go `url.QueryEscape`: escape the UTF-8 bytes of the string. -/
def queryEscape (s : String) : String :=
  ⟨concatMap escapeByte (concatMap utf8Bytes s.data)⟩

/-- Fuel-driven core of `strings.ReplaceAll` for a non-empty pattern:
left-to-right, non-overlapping replacement.  The fuel (initially the
length of the subject) only makes the recursion structural; it never runs
out for non-empty patterns. -/
def replaceAux (old new : List Char) : Nat → List Char → List Char
  | _, [] => []
  | 0, s => s
  | fuel + 1, c :: rest =>
    if old.isPrefixOf (c :: rest) then
      new ++ replaceAux old new fuel (List.drop (old.length - 1) rest)
    else
      c :: replaceAux old new fuel rest

/-- Go `strings.ReplaceAll(s, old, new)` for the non-empty literal
patterns the program uses. -/
def goReplaceAll (s old new : String) : String :=
  ⟨replaceAux old.data new.data s.data.length s.data⟩

/-- Go `http.StatusText` restricted to the codes this program can produce
(all other codes yield `""` as in the stdlib). -/
def statusText (code : Int) : String :=
  if code = 200 then "OK"
  else if code = 302 then "Found"
  else if code = 307 then "Temporary Redirect"
  else if code = 500 then "Internal Server Error"
  else ""

/-- Go `http.Error(w, msg, 500)` on the real sink: deletes
`Content-Length`, sets the two plain-text headers, commits 500 and writes
the message; `fmt.Fprintln` appends a newline to the message. -/
def httpError (s : RealSink) (msg : String) : RealSink :=
  let h := headerDel s.header "Content-Length"
  let h := headerSet h "Content-Type" "text/plain; charset=utf-8"
  let h := headerSet h "X-Content-Type-Options" "nosniff"
  (sinkWrite { s with header := h, statusLog := s.statusLog ++ [500] } (msg ++ "\n")).1

/-- `redirectStatus.ServeHTTP(rw, req)`: run the handler against a fresh
catcher; return untouched unless a filtered code was caught; otherwise
build the target from the template (when non-empty), set `Location` on the
real sink, commit 302 for GET and 307 otherwise, write the reason phrase,
and fall back to `http.Error` with status 500 when that write fails. -/
def serveHTTP (ranges : List (Int × Int)) (toTmpl : String) (rw : RealSink)
    (req : Request) (handler : List Event) : RealSink :=
  let catcher := runHandler (newCodeCatcher rw ranges) handler
  if isFilteredCode catcher then
    let target :=
      if 0 < toTmpl.length then
        goReplaceAll (goReplaceAll toTmpl "{status}" (toString (getCode catcher)))
          "{url}" (queryEscape req.url)
      else ""
    let s1 : RealSink := { catcher.sink with
      header := headerSet catcher.sink.header "Location" target }
    let status : Int := if req.method = "GET" then 302 else 307
    let s2 : RealSink := { s1 with statusLog := s1.statusLog ++ [status] }
    let wr := sinkWrite s2 (statusText status)
    match wr.2.2 with
    | none => wr.1
    | some msg => httpError wr.1 msg
  else catcher.sink

/-! ## Concrete fixtures used to evaluate the theorems -/

/-- A well-behaved real sink: flush-capable, writes always succeed. -/
def sink0 : RealSink :=
  { header := emptyHeader, statusLog := [], body := "", flushLog := 0,
    supportsFlush := true, writeRes := fun s => (s.length, none) }

/-- A real sink whose writes fail with the error message `boom`. -/
def sinkErr : RealSink :=
  { sink0 with writeRes := fun _ => (0, some "boom") }

/-- A GET request. -/
def req0 : Request := { method := "GET", url := "http://a/b?c=d" }

/-- A POST request. -/
def reqPost : Request := { method := "POST", url := "http://a/b" }

/-- An interceptor state in suppression mode (code 500 caught). -/
def ccSupp : CCState :=
  { headerMap := emptyHeader, code := 500, httpCodeRanges := [(500, 599)],
    caughtFilteredCode := true, headersSent := false, sink := sink0 }

/-- An interceptor state in pass-through mode. -/
def ccPass : CCState :=
  { headerMap := emptyHeader, code := 200, httpCodeRanges := [(500, 599)],
    caughtFilteredCode := false, headersSent := true, sink := sink0 }

/-! ## Basic lemmas about the interceptor state machine -/

lemma writeHeader_decided (cc : CCState) (c : Int)
    (h : (cc.headersSent || cc.caughtFilteredCode) = true) :
    ccWriteHeader cc c = cc := by
  unfold ccWriteHeader
  simp [h]

lemma writeHeader_caught (cc : CCState) (c : Int)
    (hs : cc.headersSent = false) (hc : cc.caughtFilteredCode = false)
    (hin : containsCode cc.httpCodeRanges c = true) :
    ccWriteHeader cc c = { cc with code := c, caughtFilteredCode := true } := by
  unfold ccWriteHeader
  simp [hs, hc, hin]

lemma writeHeader_pass (cc : CCState) (c : Int)
    (hs : cc.headersSent = false) (hc : cc.caughtFilteredCode = false)
    (hin : containsCode cc.httpCodeRanges c = false) :
    ccWriteHeader cc c =
      { cc with
        code := c
        headersSent := true
        sink := { cc.sink with
          header := copyHeaders cc.sink.header cc.headerMap
          statusLog := cc.sink.statusLog ++ [c] } } := by
  unfold ccWriteHeader
  simp [hs, hc, hin]

lemma writeHeader_preserves (cc : CCState) (c : Int) :
    (ccWriteHeader cc c).httpCodeRanges = cc.httpCodeRanges ∧
    (ccWriteHeader cc c).sink.body = cc.sink.body ∧
    (ccWriteHeader cc c).sink.flushLog = cc.sink.flushLog ∧
    (ccWriteHeader cc c).sink.supportsFlush = cc.sink.supportsFlush ∧
    (ccWriteHeader cc c).sink.writeRes = cc.sink.writeRes ∧
    (ccWriteHeader cc c).headerMap = cc.headerMap := by
  unfold ccWriteHeader
  split
  · exact ⟨rfl, rfl, rfl, rfl, rfl, rfl⟩
  · split <;> exact ⟨rfl, rfl, rfl, rfl, rfl, rfl⟩

/-- Once the interceptor has committed (either flag set), no later event
changes the flags, the captured code, the configured ranges, the captured
header map in the sink, or what was committed to the real sink. -/
lemma step_decided (cc : CCState) (e : Event)
    (h : (cc.headersSent || cc.caughtFilteredCode) = true) :
    (step cc e).headersSent = cc.headersSent ∧
    (step cc e).caughtFilteredCode = cc.caughtFilteredCode ∧
    (step cc e).code = cc.code ∧
    (step cc e).httpCodeRanges = cc.httpCodeRanges ∧
    (step cc e).sink.statusLog = cc.sink.statusLog ∧
    (step cc e).sink.header = cc.sink.header := by
  cases e with
  | setHeader k v => exact ⟨rfl, rfl, rfl, rfl, rfl, rfl⟩
  | addHeader k v => exact ⟨rfl, rfl, rfl, rfl, rfl, rfl⟩
  | writeHeader c =>
      have hstep : step cc (Event.writeHeader c) = cc := writeHeader_decided cc c h
      rw [hstep]
      exact ⟨rfl, rfl, rfl, rfl, rfl, rfl⟩
  | write buf =>
      have h1 : ccWriteHeader cc cc.code = cc := writeHeader_decided cc cc.code h
      cases hcc : cc.caughtFilteredCode with
      | true => simp [step, ccWrite, h1, hcc]
      | false => simp [step, ccWrite, h1, hcc, sinkWrite]
  | flush =>
      have h1 : ccWriteHeader cc cc.code = cc := writeHeader_decided cc cc.code h
      cases hf : cc.sink.supportsFlush with
      | true => simp [step, ccFlush, h1, hf]
      | false => simp [step, ccFlush, h1, hf]

lemma run_decided (es : List Event) :
    ∀ cc : CCState, (cc.headersSent || cc.caughtFilteredCode) = true →
    (runHandler cc es).headersSent = cc.headersSent ∧
    (runHandler cc es).caughtFilteredCode = cc.caughtFilteredCode ∧
    (runHandler cc es).code = cc.code ∧
    (runHandler cc es).httpCodeRanges = cc.httpCodeRanges ∧
    (runHandler cc es).sink.statusLog = cc.sink.statusLog ∧
    (runHandler cc es).sink.header = cc.sink.header := by
  induction es with
  | nil => intro cc _; exact ⟨rfl, rfl, rfl, rfl, rfl, rfl⟩
  | cons e rest ih =>
      intro cc h
      have hstep := step_decided cc e h
      have h' : ((step cc e).headersSent || (step cc e).caughtFilteredCode) = true := by
        rw [hstep.1, hstep.2.1]; exact h
      have hrest := ih (step cc e) h'
      have hrun : runHandler cc (e :: rest) = runHandler (step cc e) rest := rfl
      rw [hrun]
      exact ⟨hrest.1.trans hstep.1, hrest.2.1.trans hstep.2.1,
        hrest.2.2.1.trans hstep.2.2.1, hrest.2.2.2.1.trans hstep.2.2.2.1,
        hrest.2.2.2.2.1.trans hstep.2.2.2.2.1, hrest.2.2.2.2.2.trans hstep.2.2.2.2.2⟩

lemma step_header_event (cc : CCState) (e : Event) (he : isHeaderEvent e = true) :
    (step cc e).code = cc.code ∧
    (step cc e).caughtFilteredCode = cc.caughtFilteredCode ∧
    (step cc e).headersSent = cc.headersSent ∧
    (step cc e).sink = cc.sink ∧
    (step cc e).httpCodeRanges = cc.httpCodeRanges := by
  cases e with
  | setHeader k v => exact ⟨rfl, rfl, rfl, rfl, rfl⟩
  | addHeader k v => exact ⟨rfl, rfl, rfl, rfl, rfl⟩
  | writeHeader c => simp [isHeaderEvent] at he
  | write buf => simp [isHeaderEvent] at he
  | flush => simp [isHeaderEvent] at he

lemma run_header_only (es : List Event) :
    ∀ cc : CCState, (∀ e ∈ es, isHeaderEvent e = true) →
    (runHandler cc es).code = cc.code ∧
    (runHandler cc es).caughtFilteredCode = cc.caughtFilteredCode ∧
    (runHandler cc es).headersSent = cc.headersSent ∧
    (runHandler cc es).sink = cc.sink ∧
    (runHandler cc es).httpCodeRanges = cc.httpCodeRanges := by
  induction es with
  | nil => intro cc _; exact ⟨rfl, rfl, rfl, rfl, rfl⟩
  | cons e rest ih =>
      intro cc hall
      have he := hall e (List.mem_cons_self e rest)
      have hstep := step_header_event cc e he
      have hrest := ih (step cc e) (fun x hx => hall x (List.mem_cons_of_mem e hx))
      have hrun : runHandler cc (e :: rest) = runHandler (step cc e) rest := rfl
      rw [hrun]
      exact ⟨hrest.1.trans hstep.1, hrest.2.1.trans hstep.2.1,
        hrest.2.2.1.trans hstep.2.2.1, hrest.2.2.2.1.trans hstep.2.2.2.1,
        hrest.2.2.2.2.trans hstep.2.2.2.2⟩

lemma firstCommitCode_header (d : Int) (e : Event) (rest : List Event)
    (he : isHeaderEvent e = true) :
    firstCommitCode d (e :: rest) = firstCommitCode d rest := by
  cases e with
  | setHeader k v => rfl
  | addHeader k v => rfl
  | writeHeader c => simp [isHeaderEvent] at he
  | write buf => simp [isHeaderEvent] at he
  | flush => simp [isHeaderEvent] at he

lemma firstCommitCode_commit (d : Int) (e : Event) (rest : List Event)
    (he : isHeaderEvent e = false) :
    firstCommitCode d (e :: rest) = firstCommitCode d [e] := by
  cases e with
  | setHeader k v => simp [isHeaderEvent] at he
  | addHeader k v => simp [isHeaderEvent] at he
  | writeHeader c => rfl
  | write buf => rfl
  | flush => rfl

/-- The one step that commits from the `Open` state: whichever event
carries the commit (explicit code, or implicit with the captured code),
the flags and the real sink commit are decided exactly by range
membership of the committed code. -/
lemma step_commit (cc : CCState) (e : Event) (C : Int)
    (hs : cc.headersSent = false) (hc : cc.caughtFilteredCode = false)
    (hone : firstCommitCode cc.code [e] = some C) :
    (step cc e).code = C ∧
    (step cc e).caughtFilteredCode = containsCode cc.httpCodeRanges C ∧
    (step cc e).headersSent = !(containsCode cc.httpCodeRanges C) ∧
    (step cc e).httpCodeRanges = cc.httpCodeRanges ∧
    (step cc e).sink.statusLog =
      (if containsCode cc.httpCodeRanges C then cc.sink.statusLog
       else cc.sink.statusLog ++ [C]) := by
  cases e with
  | setHeader k v => simp [firstCommitCode] at hone
  | addHeader k v => simp [firstCommitCode] at hone
  | writeHeader c =>
      have hcC : c = C := by simpa [firstCommitCode] using hone
      subst hcC
      cases hin : containsCode cc.httpCodeRanges c with
      | true => simp [step, writeHeader_caught cc c hs hc hin, hin, hs]
      | false => simp [step, writeHeader_pass cc c hs hc hin, hin, hc]
  | write buf =>
      have hcC : cc.code = C := by simpa [firstCommitCode] using hone
      subst hcC
      cases hin : containsCode cc.httpCodeRanges cc.code with
      | true => simp [step, ccWrite, writeHeader_caught cc cc.code hs hc hin, hin, hs]
      | false =>
          simp [step, ccWrite, writeHeader_pass cc cc.code hs hc hin, sinkWrite, hin, hc]
  | flush =>
      have hcC : cc.code = C := by simpa [firstCommitCode] using hone
      subst hcC
      cases hin : containsCode cc.httpCodeRanges cc.code with
      | true =>
          cases hf : cc.sink.supportsFlush with
          | true => simp [step, ccFlush, writeHeader_caught cc cc.code hs hc hin, hin, hs, hf]
          | false => simp [step, ccFlush, writeHeader_caught cc cc.code hs hc hin, hin, hs, hf]
      | false =>
          cases hf : cc.sink.supportsFlush with
          | true => simp [step, ccFlush, writeHeader_pass cc cc.code hs hc hin, hin, hc, hf]
          | false => simp [step, ccFlush, writeHeader_pass cc cc.code hs hc hin, hin, hc, hf]

/-- Main trace lemma: when the trace commits for the first time with code
`C`, the final interceptor state is decided by range membership of `C`,
and in the pass-through case exactly `C` was committed to the real sink. -/
lemma run_firstCommit (es : List Event) :
    ∀ (cc : CCState) (C : Int),
    cc.headersSent = false → cc.caughtFilteredCode = false →
    firstCommitCode cc.code es = some C →
    (runHandler cc es).code = C ∧
    (runHandler cc es).caughtFilteredCode = containsCode cc.httpCodeRanges C ∧
    (runHandler cc es).headersSent = !(containsCode cc.httpCodeRanges C) ∧
    (runHandler cc es).sink.statusLog =
      (if containsCode cc.httpCodeRanges C then cc.sink.statusLog
       else cc.sink.statusLog ++ [C]) := by
  induction es with
  | nil => intro cc C _ _ hfc; simp [firstCommitCode] at hfc
  | cons e rest ih =>
      intro cc C hs hc hfc
      have hrun : runHandler cc (e :: rest) = runHandler (step cc e) rest := rfl
      cases he : isHeaderEvent e with
      | true =>
          have hstep := step_header_event cc e he
          have hfc' : firstCommitCode (step cc e).code rest = some C := by
            rw [hstep.1]
            rw [firstCommitCode_header cc.code e rest he] at hfc
            exact hfc
          have ih' := ih (step cc e) C (by rw [hstep.2.2.1]; exact hs)
            (by rw [hstep.2.1]; exact hc) hfc'
          rw [hrun]
          refine ⟨ih'.1, ?_, ?_, ?_⟩
          · rw [ih'.2.1, hstep.2.2.2.2]
          · rw [ih'.2.2.1, hstep.2.2.2.2]
          · rw [ih'.2.2.2, hstep.2.2.2.2, hstep.2.2.2.1]
      | false =>
          rw [firstCommitCode_commit cc.code e rest he] at hfc
          have hcom := step_commit cc e C hs hc hfc
          have hdec := run_decided rest (step cc e) (by
            rw [hcom.2.2.1, hcom.2.1]
            cases containsCode cc.httpCodeRanges C <;> simp)
          rw [hrun]
          exact ⟨hdec.2.2.1.trans hcom.1, hdec.2.1.trans hcom.2.1,
            hdec.1.trans hcom.2.2.1, hdec.2.2.2.2.1.trans hcom.2.2.2.2⟩

/-- Membership in the configured ranges, as the spec states it. -/
lemma containsCode_iff (ranges : List (Int × Int)) (c : Int) :
    containsCode ranges c = true ↔ ∃ r ∈ ranges, r.1 ≤ c ∧ c ≤ r.2 := by
  simp [containsCode, List.any_eq_true]

/-! ## Claim theorems -/

/-- C1: for every request in which the upstream handler's first status
commit (explicit `WriteHeader`, or implicit via the first body write or
flush) carries code `C`, the interceptor ends with `isFilteredCode` true
iff some configured range `[lo, hi]` satisfies `lo ≤ C ≤ hi`; otherwise it
ends in pass-through and the real sink's status commit is invoked with
exactly `C`. -/
theorem c1_first_commit_suppression (sink : RealSink) (ranges : List (Int × Int))
    (es : List Event) (C : Int) (fin : CCState)
    (hfin : fin = runHandler (newCodeCatcher sink ranges) es)
    (hfc : firstCommitCode 200 es = some C) :
    (isFilteredCode fin = true ↔ ∃ r ∈ ranges, r.1 ≤ C ∧ C ≤ r.2) ∧
    (isFilteredCode fin = false →
      fin.headersSent = true ∧ fin.sink.statusLog = sink.statusLog ++ [C]) := by
  subst hfin
  have h := run_firstCommit es (newCodeCatcher sink ranges) C rfl rfl hfc
  have hcaught : isFilteredCode (runHandler (newCodeCatcher sink ranges) es) =
      containsCode ranges C := h.2.1
  constructor
  · rw [hcaught]
    exact containsCode_iff ranges C
  · intro hnot
    have hfalse : containsCode (newCodeCatcher sink ranges).httpCodeRanges C = false :=
      hcaught.symm.trans hnot
    have hsent := h.2.2.1
    have hlog := h.2.2.2
    rw [hfalse] at hsent hlog
    simp at hsent hlog
    exact ⟨hsent, hlog⟩

theorem c1_first_commit_suppression_witness :
    firstCommitCode 200 [Event.writeHeader 418] = some 418 ∧
    ((isFilteredCode (runHandler (newCodeCatcher sink0 [(400, 499)])
        [Event.writeHeader 418]) = true ↔
      ∃ r ∈ [((400 : Int), (499 : Int))], r.1 ≤ 418 ∧ (418 : Int) ≤ r.2) ∧
    (isFilteredCode (runHandler (newCodeCatcher sink0 [(400, 499)])
        [Event.writeHeader 418]) = false →
      (runHandler (newCodeCatcher sink0 [(400, 499)])
        [Event.writeHeader 418]).headersSent = true ∧
      (runHandler (newCodeCatcher sink0 [(400, 499)])
        [Event.writeHeader 418]).sink.statusLog = sink0.statusLog ++ [418])) :=
  ⟨by decide,
   c1_first_commit_suppression sink0 [(400, 499)] [Event.writeHeader 418] 418 _
     rfl (by decide)⟩

/-- C2: a body write after the commit decision forwards the exact bytes to
the real sink and returns the real sink's byte count and error in
pass-through mode; in suppression mode it leaves the real sink untouched
and returns the full length with no error. -/
theorem c2_write_after_decision (cc : CCState) (buf : String)
    (hd : (cc.headersSent || cc.caughtFilteredCode) = true) :
    (cc.caughtFilteredCode = true →
      (ccWrite cc buf).2 = (buf.length, none) ∧
      (ccWrite cc buf).1.sink = cc.sink) ∧
    (cc.caughtFilteredCode = false →
      (ccWrite cc buf).2 = cc.sink.writeRes buf ∧
      (ccWrite cc buf).1.sink.body = cc.sink.body ++ buf ∧
      (ccWrite cc buf).1.sink.statusLog = cc.sink.statusLog ∧
      (ccWrite cc buf).1.sink.header = cc.sink.header ∧
      (ccWrite cc buf).1.sink.flushLog = cc.sink.flushLog) := by
  have h1 : ccWriteHeader cc cc.code = cc := writeHeader_decided cc cc.code hd
  constructor
  · intro hcc
    simp [ccWrite, h1, hcc]
  · intro hcc
    simp [ccWrite, h1, hcc, sinkWrite]

theorem c2_write_after_decision_witness :
    ((ccSupp.headersSent || ccSupp.caughtFilteredCode) = true ∧
      ccSupp.caughtFilteredCode = true ∧
      (ccWrite ccSupp "abc").2 = ("abc".length, none) ∧
      (ccWrite ccSupp "abc").1.sink = ccSupp.sink) ∧
    ((ccPass.headersSent || ccPass.caughtFilteredCode) = true ∧
      ccPass.caughtFilteredCode = false ∧
      (ccWrite ccPass "abc").2 = ccPass.sink.writeRes "abc" ∧
      (ccWrite ccPass "abc").1.sink.body = ccPass.sink.body ++ "abc") :=
  ⟨⟨rfl, rfl, ((c2_write_after_decision ccSupp "abc" rfl).1 rfl).1,
    ((c2_write_after_decision ccSupp "abc" rfl).1 rfl).2⟩,
   ⟨rfl, rfl, ((c2_write_after_decision ccPass "abc" rfl).2 rfl).1,
    ((c2_write_after_decision ccPass "abc" rfl).2 rfl).2.1⟩⟩

/-- C3 counterexample: in suppression mode with a flush-capable real sink,
`Flush` is still forwarded to the real sink (the source checks only the
flusher capability, not the suppression flag), so the claimed no-op toward
the real sink in the `Suppressed` state is false. -/
theorem c3_flush_suppressed_counterexample :
    isFilteredCode ccSupp = true ∧ ccSupp.sink.supportsFlush = true ∧
    ¬ ((ccFlush ccSupp).sink.flushLog = ccSupp.sink.flushLog) := by
  refine ⟨rfl, rfl, ?_⟩
  decide

/-- C3 (amended): `Flush` first performs the implicit commit (the same
`WriteHeader` with the currently captured code, a no-op unless the state
is still open), then forwards the flush to the real sink exactly when the
real sink supports flushing, regardless of the resulting state, including
`Suppressed`. -/
theorem c3_flush_forwards_when_supported (cc : CCState) (fin : CCState)
    (hfin : fin = ccFlush cc) :
    fin.headersSent = (ccWriteHeader cc cc.code).headersSent ∧
    fin.caughtFilteredCode = (ccWriteHeader cc cc.code).caughtFilteredCode ∧
    fin.code = (ccWriteHeader cc cc.code).code ∧
    fin.sink.statusLog = (ccWriteHeader cc cc.code).sink.statusLog ∧
    fin.sink.header = (ccWriteHeader cc cc.code).sink.header ∧
    fin.sink.body = (ccWriteHeader cc cc.code).sink.body ∧
    fin.sink.flushLog = cc.sink.flushLog + (if cc.sink.supportsFlush then 1 else 0) := by
  subst hfin
  have hp := writeHeader_preserves cc cc.code
  cases hf : cc.sink.supportsFlush with
  | true =>
      have hf' : (ccWriteHeader cc cc.code).sink.supportsFlush = true := by
        rw [hp.2.2.2.1]; exact hf
      simp [ccFlush, hf', hp.2.2.1, hf]
  | false =>
      have hf' : (ccWriteHeader cc cc.code).sink.supportsFlush = false := by
        rw [hp.2.2.2.1]; exact hf
      simp [ccFlush, hf', hp.2.2.1, hf]

theorem c3_flush_forwards_when_supported_witness :
    (ccFlush ccSupp).headersSent = (ccWriteHeader ccSupp ccSupp.code).headersSent ∧
    (ccFlush ccSupp).caughtFilteredCode = (ccWriteHeader ccSupp ccSupp.code).caughtFilteredCode ∧
    (ccFlush ccSupp).code = (ccWriteHeader ccSupp ccSupp.code).code ∧
    (ccFlush ccSupp).sink.statusLog = (ccWriteHeader ccSupp ccSupp.code).sink.statusLog ∧
    (ccFlush ccSupp).sink.header = (ccWriteHeader ccSupp ccSupp.code).sink.header ∧
    (ccFlush ccSupp).sink.body = (ccWriteHeader ccSupp ccSupp.code).sink.body ∧
    (ccFlush ccSupp).sink.flushLog =
      ccSupp.sink.flushLog + (if ccSupp.sink.supportsFlush then 1 else 0) :=
  c3_flush_forwards_when_supported ccSupp _ rfl

/-- C4 counterexample: after the pass-through transition, a header set
through the interceptor lands in the private captured map (`Header()` in
the source returns `cc.headerMap` unconditionally) and never reaches the
real sink's header mapping, contrary to the claim. -/
theorem c4_post_transition_header_counterexample :
    (ccWriteHeader (newCodeCatcher sink0 []) 200).headersSent = true ∧
    (ccWriteHeader (newCodeCatcher sink0 []) 200).caughtFilteredCode = false ∧
    ccHeader (step (ccWriteHeader (newCodeCatcher sink0 []) 200)
      (Event.setHeader "X-Test" "v")) "X-Test" = ["v"] ∧
    (step (ccWriteHeader (newCodeCatcher sink0 []) 200)
      (Event.setHeader "X-Test" "v")).sink.header "X-Test" = [] ∧
    ¬ ((step (ccWriteHeader (newCodeCatcher sink0 []) 200)
      (Event.setHeader "X-Test" "v")).sink.header "X-Test" = ["v"]) := by
  refine ⟨rfl, rfl, ?_, ?_, ?_⟩ <;> decide

/-- C4 (amended): header mutation through the interceptor always targets
the private captured map; at the pass-through transition the captured map
is copied additively into the real sink headers (existing real-sink values
kept, captured values appended); at the suppression transition nothing is
copied; after either transition further header mutation through the
interceptor still goes to the private captured map, leaving the real sink
headers unchanged. -/
theorem c4_header_routing (cc : CCState) (k v : String) (c : Int)
    (hs : cc.headersSent = false) (hc : cc.caughtFilteredCode = false) :
    (step cc (Event.setHeader k v)).sink = cc.sink ∧
    ccHeader (step cc (Event.setHeader k v)) = headerSet (ccHeader cc) k v ∧
    (containsCode cc.httpCodeRanges c = false →
      ∀ q, (ccWriteHeader cc c).sink.header q = cc.sink.header q ++ ccHeader cc q) ∧
    (containsCode cc.httpCodeRanges c = true →
      (ccWriteHeader cc c).sink = cc.sink) ∧
    (step (ccWriteHeader cc c) (Event.setHeader k v)).sink = (ccWriteHeader cc c).sink ∧
    ccHeader (step (ccWriteHeader cc c) (Event.setHeader k v)) =
      headerSet (ccHeader (ccWriteHeader cc c)) k v := by
  refine ⟨rfl, rfl, ?_, ?_, rfl, rfl⟩
  · intro hin q
    rw [writeHeader_pass cc c hs hc hin]
    rfl
  · intro hin
    rw [writeHeader_caught cc c hs hc hin]

theorem c4_header_routing_witness :
    (newCodeCatcher sink0 [(400, 499)]).headersSent = false ∧
    (newCodeCatcher sink0 [(400, 499)]).caughtFilteredCode = false ∧
    (step (newCodeCatcher sink0 [(400, 499)]) (Event.setHeader "X-A" "1")).sink =
      (newCodeCatcher sink0 [(400, 499)]).sink ∧
    (ccWriteHeader (newCodeCatcher sink0 [(400, 499)]) 404).sink =
      (newCodeCatcher sink0 [(400, 499)]).sink :=
  ⟨rfl, rfl,
   (c4_header_routing (newCodeCatcher sink0 [(400, 499)]) "X-A" "1" 404 rfl rfl).1,
   (c4_header_routing (newCodeCatcher sink0 [(400, 499)]) "X-A" "1" 404 rfl rfl).2.2.2.1
     (by decide)⟩

/-- C5: after the first status commit, a later explicit `WriteHeader` is a
complete no-op: the whole interceptor state, including the captured code,
the suppression decision and everything sent to the real sink, is the one
of the first commit. -/
theorem c5_second_writeHeader_noop (sink : RealSink) (ranges : List (Int × Int))
    (es : List Event) (C c2 : Int)
    (hfc : firstCommitCode 200 es = some C) :
    runHandler (newCodeCatcher sink ranges) (es ++ [Event.writeHeader c2]) =
      runHandler (newCodeCatcher sink ranges) es := by
  have h := run_firstCommit es (newCodeCatcher sink ranges) C rfl rfl hfc
  have hdec : ((runHandler (newCodeCatcher sink ranges) es).headersSent ||
      (runHandler (newCodeCatcher sink ranges) es).caughtFilteredCode) = true := by
    rw [h.2.2.1, h.2.1]
    cases hx : containsCode (newCodeCatcher sink ranges).httpCodeRanges C <;> simp [hx]
  have happ : runHandler (newCodeCatcher sink ranges) (es ++ [Event.writeHeader c2]) =
      step (runHandler (newCodeCatcher sink ranges) es) (Event.writeHeader c2) := by
    simp [runHandler, List.foldl_append]
  rw [happ]
  exact writeHeader_decided _ c2 hdec

theorem c5_second_writeHeader_noop_witness :
    firstCommitCode 200 [Event.writeHeader 200] = some 200 ∧
    runHandler (newCodeCatcher sink0 [(400, 499)])
        ([Event.writeHeader 200] ++ [Event.writeHeader 500]) =
      runHandler (newCodeCatcher sink0 [(400, 499)]) [Event.writeHeader 200] :=
  ⟨by decide,
   c5_second_writeHeader_noop sink0 [(400, 499)] [Event.writeHeader 200] 200 500
     (by decide)⟩

/-- C6: a body write or a flush performed while nothing but header
mutations have happened commits implicitly with the default captured code
200, and in the pass-through case commits exactly 200 to the real sink. -/
theorem c6_implicit_commit_default (sink : RealSink) (ranges : List (Int × Int))
    (es : List Event) (buf : String) (cc : CCState)
    (hcc : cc = runHandler (newCodeCatcher sink ranges) es)
    (hhdr : ∀ e ∈ es, isHeaderEvent e = true) :
    getCode (ccWrite cc buf).1 = 200 ∧
    (ccWrite cc buf).1.caughtFilteredCode = containsCode ranges 200 ∧
    getCode (ccFlush cc) = 200 ∧
    (ccFlush cc).caughtFilteredCode = containsCode ranges 200 ∧
    (containsCode ranges 200 = false →
      (ccWrite cc buf).1.sink.statusLog = sink.statusLog ++ [200] ∧
      (ccFlush cc).sink.statusLog = sink.statusLog ++ [200]) := by
  subst hcc
  have h := run_header_only es (newCodeCatcher sink ranges) hhdr
  have hcode : (runHandler (newCodeCatcher sink ranges) es).code = 200 := h.1
  have hcaught : (runHandler (newCodeCatcher sink ranges) es).caughtFilteredCode = false := h.2.1
  have hsent : (runHandler (newCodeCatcher sink ranges) es).headersSent = false := h.2.2.1
  have hsink : (runHandler (newCodeCatcher sink ranges) es).sink = sink := h.2.2.2.1
  have hranges : (runHandler (newCodeCatcher sink ranges) es).httpCodeRanges = ranges :=
    h.2.2.2.2
  have hw := step_commit (runHandler (newCodeCatcher sink ranges) es)
    (Event.write buf) 200 hsent hcaught (by simp [firstCommitCode, hcode])
  have hf := step_commit (runHandler (newCodeCatcher sink ranges) es)
    Event.flush 200 hsent hcaught (by simp [firstCommitCode, hcode])
  refine ⟨hw.1, ?_, hf.1, ?_, ?_⟩
  · exact hw.2.1.trans (by rw [hranges])
  · exact hf.2.1.trans (by rw [hranges])
  · intro hnotin
    have hnotin' : containsCode
        (runHandler (newCodeCatcher sink ranges) es).httpCodeRanges 200 = false := by
      rw [hranges]; exact hnotin
    constructor
    · have hthis := hw.2.2.2.2
      rw [hnotin'] at hthis
      simp at hthis
      exact hthis.trans (by rw [hsink])
    · have hthis := hf.2.2.2.2
      rw [hnotin'] at hthis
      simp at hthis
      exact hthis.trans (by rw [hsink])

theorem c6_implicit_commit_default_witness :
    (∀ e ∈ [Event.addHeader "A" "b"], isHeaderEvent e = true) ∧
    getCode (ccWrite (runHandler (newCodeCatcher sink0 [(500, 599)])
      [Event.addHeader "A" "b"]) "x").1 = 200 ∧
    (ccWrite (runHandler (newCodeCatcher sink0 [(500, 599)])
      [Event.addHeader "A" "b"]) "x").1.sink.statusLog = sink0.statusLog ++ [200] ∧
    (ccFlush (runHandler (newCodeCatcher sink0 [(500, 599)])
      [Event.addHeader "A" "b"])).sink.statusLog = sink0.statusLog ++ [200] := by
  have h := c6_implicit_commit_default sink0 [(500, 599)] [Event.addHeader "A" "b"]
    "x" _ rfl (by decide)
  exact ⟨by decide, h.1, (h.2.2.2.2 (by decide)).1, (h.2.2.2.2 (by decide)).2⟩

/-- C7: for every suppressed request, the middleware commits 302 to the
real sink when the request method is GET and 307 otherwise, and (when the
write succeeds) writes the standard reason phrase of the chosen status as
the body. -/
theorem c7_redirect_status_and_body (ranges : List (Int × Int)) (toTmpl : String)
    (rw : RealSink) (req : Request) (handler : List Event)
    (catcher : CCState) (status : Int)
    (hcatch : catcher = runHandler (newCodeCatcher rw ranges) handler)
    (hstat : status = (if req.method = "GET" then (302 : Int) else 307))
    (hsup : isFilteredCode catcher = true)
    (hok : (catcher.sink.writeRes (statusText status)).2 = none) :
    (serveHTTP ranges toTmpl rw req handler).statusLog =
      catcher.sink.statusLog ++ [status] ∧
    (serveHTTP ranges toTmpl rw req handler).body =
      catcher.sink.body ++ statusText status := by
  subst hcatch
  subst hstat
  simp only [serveHTTP, hsup, if_true, sinkWrite]
  rw [hok]
  simp

theorem c7_redirect_status_and_body_witness :
    isFilteredCode (runHandler (newCodeCatcher sink0 [(401, 403)])
      [Event.writeHeader 401]) = true ∧
    (serveHTTP [(401, 403)] "http://localhost" sink0
        { method := "GET", url := "https://example.org" }
        [Event.writeHeader 401]).statusLog =
      (runHandler (newCodeCatcher sink0 [(401, 403)])
        [Event.writeHeader 401]).sink.statusLog ++ [302] ∧
    (serveHTTP [(401, 403)] "http://localhost" sink0
        { method := "GET", url := "https://example.org" }
        [Event.writeHeader 401]).body =
      (runHandler (newCodeCatcher sink0 [(401, 403)])
        [Event.writeHeader 401]).sink.body ++ statusText 302 := by
  have h := c7_redirect_status_and_body [(401, 403)] "http://localhost" sink0
    { method := "GET", url := "https://example.org" } [Event.writeHeader 401]
    _ 302 rfl (by decide) (by decide) (by decide)
  exact ⟨by decide, h.1, h.2⟩

/-- C8: for every suppressed request, the `Location` header on the real
sink is set, overwriting any prior value, to the template with `{status}`
replaced by the decimal captured code and `{url}` by the percent-encoded
request URL when the template is non-empty, and to the empty string when
the template is empty; this holds on the write-error fallback path too. -/
theorem c8_location_header (ranges : List (Int × Int)) (toTmpl : String)
    (rw : RealSink) (req : Request) (handler : List Event) (catcher : CCState)
    (hcatch : catcher = runHandler (newCodeCatcher rw ranges) handler)
    (hsup : isFilteredCode catcher = true) :
    (serveHTTP ranges toTmpl rw req handler).header "Location" =
      [if 0 < toTmpl.length then
         goReplaceAll (goReplaceAll toTmpl "{status}" (toString (getCode catcher)))
           "{url}" (queryEscape req.url)
       else ""] := by
  subst hcatch
  simp only [serveHTTP, hsup, if_true, sinkWrite]
  cases hres : ((runHandler (newCodeCatcher rw ranges) handler).sink.writeRes
      (statusText (if req.method = "GET" then 302 else 307))).2 with
  | none => simp [headerSet]
  | some msg => simp [httpError, headerSet, headerDel, sinkWrite]

theorem c8_location_header_witness :
    isFilteredCode (runHandler (newCodeCatcher sink0 [(400, 499)])
      [Event.writeHeader 403]) = true ∧
    (serveHTTP [(400, 499)] "http://x/{status}?u={url}" sink0 req0
        [Event.writeHeader 403]).header "Location" =
      ["http://x/403?u=http%3A%2F%2Fa%2Fb%3Fc%3Dd"] :=
  ⟨by decide,
   (c8_location_header [(400, 499)] "http://x/{status}?u={url}" sink0 req0
      [Event.writeHeader 403] _ rfl (by decide)).trans (by decide)⟩

/-- C9: when writing the redirect body to the real sink fails, the
middleware stays local: it commits 500 on top of the redirect status and
writes the write error message (with the newline appended by
`fmt.Fprintln` inside `http.Error`) as the 500 response body. -/
theorem c9_write_error_500 (ranges : List (Int × Int)) (toTmpl : String)
    (rw : RealSink) (req : Request) (handler : List Event)
    (catcher : CCState) (status : Int) (msg : String)
    (hcatch : catcher = runHandler (newCodeCatcher rw ranges) handler)
    (hstat : status = (if req.method = "GET" then (302 : Int) else 307))
    (hsup : isFilteredCode catcher = true)
    (herr : (catcher.sink.writeRes (statusText status)).2 = some msg) :
    (serveHTTP ranges toTmpl rw req handler).statusLog =
      catcher.sink.statusLog ++ [status] ++ [500] ∧
    (serveHTTP ranges toTmpl rw req handler).body =
      catcher.sink.body ++ statusText status ++ (msg ++ "\n") := by
  subst hcatch
  subst hstat
  simp only [serveHTTP, hsup, if_true, sinkWrite]
  rw [herr]
  simp [httpError, sinkWrite]

theorem c9_write_error_500_witness :
    isFilteredCode (runHandler (newCodeCatcher sinkErr [(500, 599)])
      [Event.writeHeader 503]) = true ∧
    ((runHandler (newCodeCatcher sinkErr [(500, 599)])
      [Event.writeHeader 503]).sink.writeRes (statusText 307)).2 = some "boom" ∧
    (serveHTTP [(500, 599)] "" sinkErr reqPost [Event.writeHeader 503]).statusLog =
      (runHandler (newCodeCatcher sinkErr [(500, 599)])
        [Event.writeHeader 503]).sink.statusLog ++ [307] ++ [500] ∧
    (serveHTTP [(500, 599)] "" sinkErr reqPost [Event.writeHeader 503]).body =
      (runHandler (newCodeCatcher sinkErr [(500, 599)])
        [Event.writeHeader 503]).sink.body ++ statusText 307 ++ ("boom" ++ "\n") := by
  have h := c9_write_error_500 [(500, 599)] "" sinkErr reqPost
    [Event.writeHeader 503] _ 307 "boom" rfl (by decide) (by decide) (by decide)
  exact ⟨by decide, by decide, h.1, h.2⟩

/-- C10: when the upstream handler never commits, writes or flushes (at
most header mutations), the middleware leaves the real sink completely
untouched, for every configuration, including ranges containing 200. -/
theorem c10_untouched_sink (ranges : List (Int × Int)) (toTmpl : String)
    (rw : RealSink) (req : Request) (handler : List Event)
    (hhdr : ∀ e ∈ handler, isHeaderEvent e = true) :
    serveHTTP ranges toTmpl rw req handler = rw := by
  have h := run_header_only handler (newCodeCatcher rw ranges) hhdr
  have hcaught : isFilteredCode (runHandler (newCodeCatcher rw ranges) handler) = false :=
    h.2.1
  have hsink : (runHandler (newCodeCatcher rw ranges) handler).sink = rw :=
    h.2.2.2.1
  simp only [serveHTTP, hcaught]
  simp [hsink]

theorem c10_untouched_sink_witness :
    (∀ e ∈ ([] : List Event), isHeaderEvent e = true) ∧
    serveHTTP [(200, 200)] "http://localhost" sink0 req0 [] = sink0 :=
  ⟨by simp, c10_untouched_sink [(200, 200)] "http://localhost" sink0 req0 [] (by simp)⟩

end RedirectStatus
